import Mathlib

/-!
Verification of the MPR coherent-slice selector from `src/utils/mprUtils.ts`
(`buildMprImageIds` and its vector-math helpers). Numbers are modelled as
rationals; the metadata store is modelled as a function from image ids to an
optional image-plane module, mirroring `metaData.get('imagePlaneModule', id)`.
-/

namespace Mpr

/-- A 3-component vector (patient-space coordinates). -/
structure Vec3 where
  x : ℚ
  y : ℚ
  z : ℚ
deriving DecidableEq, Repr

/-- Component-wise negation, as in `[-b.row[0], -b.row[1], -b.row[2]]`. -/
def negVec (v : Vec3) : Vec3 := ⟨-v.x, -v.y, -v.z⟩

/-- `cross(a, b)` from the source. -/
def cross (a b : Vec3) : Vec3 :=
  ⟨a.y * b.z - a.z * b.y, a.z * b.x - a.x * b.z, a.x * b.y - a.y * b.x⟩

/-- `dot(a, b)` from the source. -/
def dot (a b : Vec3) : ℚ :=
  a.x * b.x + a.y * b.y + a.z * b.z

/-- `nearlyEqualVec(a, b, eps)` from the source: each component differs by
strictly less than `eps` in absolute value. -/
def nearlyEqualVec (a b : Vec3) (eps : ℚ) : Bool :=
  decide (|a.x - b.x| < eps) && decide (|a.y - b.y| < eps) &&
    decide (|a.z - b.z| < eps)

/-- One filtered slice: `{ imageId, ipp, row, col }` from the source. -/
structure Plane where
  imageId : String
  ipp : Vec3
  row : Vec3
  col : Vec3
deriving DecidableEq, Repr

/-- `sameOrientation(a, b, eps)` from the source: row/col agree within `eps`,
directly or after negating both of `b`'s axes. -/
def sameOrientation (a b : Plane) (eps : ℚ) : Bool :=
  (nearlyEqualVec a.row b.row eps && nearlyEqualVec a.col b.col eps) ||
    (nearlyEqualVec a.row (negVec b.row) eps &&
      nearlyEqualVec a.col (negVec b.col) eps)

/-- The tolerance `EPS = 1e-3` from `buildMprImageIds`. -/
def EPS : ℚ := 1 / 1000

/-- The `imagePlaneModule` metadata record: optional position and orientation
arrays (their lengths are validated by the selector, not here). -/
structure ImagePlaneModule where
  imagePositionPatient : Option (List ℚ)
  imageOrientationPatient : Option (List ℚ)

/-- The metadata provider: resolves an image id to an optional plane module,
mirroring `metaData.get('imagePlaneModule', id)`. -/
def MetaStore : Type := String → Option ImagePlaneModule

/-- Validation and destructuring of one id's metadata: keep it only when the
position is a 3-element array and the orientation a 6-element array, taking
`row = iop[0..2]` and `col = iop[3..5]`. -/
def planeOfMeta (id : String) (m : ImagePlaneModule) : Option Plane :=
  match m.imagePositionPatient, m.imageOrientationPatient with
  | some [px, py, pz], some [r1, r2, r3, c1, c2, c3] =>
      some { imageId := id, ipp := ⟨px, py, pz⟩, row := ⟨r1, r2, r3⟩,
             col := ⟨c1, c2, c3⟩ }
  | _, _ => none

/-- The filtering loop of `buildMprImageIds` (lines 45–54): collect, in input
order, the planes of the ids whose metadata passes validation. -/
def collectPlanes (meta : MetaStore) (ids : List String) : List Plane :=
  ids.filterMap (fun id => (meta id).bind (planeOfMeta id))

/-- The grouping pass (lines 60–76): repeatedly take the first unused plane as
a seed and put every later unused plane with the same orientation in its
group. -/
def groupPlanes (l : List Plane) : List (List Plane) :=
  match l with
  | [] => []
  | p :: rest =>
      (p :: rest.filter (fun q => sameOrientation p q EPS)) ::
        groupPlanes (rest.filter (fun q => !sameOrientation p q EPS))
termination_by l.length
decreasing_by
  exact Nat.lt_succ_of_le (List.length_filter_le _ rest)

/-- `groups.sort((a, b) => b.length - a.length)`: stable sort by descending
member count (JavaScript `Array.prototype.sort` is stable). -/
def sortGroups (gs : List (List Plane)) : List (List Plane) :=
  List.insertionSort (fun a b => b.length ≤ a.length) gs

/-- `main.sort((a, b) => dot(a.ipp, normal) - dot(b.ipp, normal))`: stable sort
ascending by projection onto `normal`. -/
def sortAlongNormal (normal : Vec3) (g : List Plane) : List Plane :=
  List.insertionSort (fun a b => dot a.ipp normal ≤ dot b.ipp normal) g

/-- The result record `{ goodIds, reason? }`. -/
structure BuildResult where
  goodIds : List String
  reason : Option String
deriving DecidableEq, Repr

/-- The failure reason string of line 57. -/
def tooFewReason : String := "Too few slices with geometry (IPP/IOP)."

/-- The failure reason string of line 81. -/
def noGroupReason : String := "No consistent orientation group with ≥3 slices."

/-- `buildMprImageIds(ids)` from the source: filter ids with valid geometry,
fail under 3; group by orientation; pick the largest group, fail when it has
fewer than 3 members; sort it along the normal of its first slice and return
the image ids. -/
def buildMprImageIds (meta : MetaStore) (ids : List String) : BuildResult :=
  let planes := collectPlanes meta ids
  if planes.length < 3 then
    { goodIds := [], reason := some tooFewReason }
  else
    let groups := sortGroups (groupPlanes planes)
    match groups.headD [] with
    | [] => { goodIds := [], reason := some noGroupReason }
    | m0 :: t =>
        if (m0 :: t).length < 3 then
          { goodIds := [], reason := some noGroupReason }
        else
          let normal := cross m0.row m0.col
          let sorted := sortAlongNormal normal (m0 :: t)
          { goodIds := sorted.map (fun p => p.imageId), reason := none }

/-- The dominant orientation group: the head of the count-sorted group list
(empty when there are no planes). -/
def dominantGroup (meta : MetaStore) (ids : List String) : List Plane :=
  (sortGroups (groupPlanes (collectPlanes meta ids))).headD []

/-! ### Concrete inputs used to instantiate the theorems -/

/-- Three coplanar-orientation slices whose projections on the slice normal
`(0,0,1)` are `0`, `5` and `-3`. -/
def exMeta1 : MetaStore := fun id =>
  match id with
  | "a" => some ⟨some [0, 0, 0], some [1, 0, 0, 0, 1, 0]⟩
  | "b" => some ⟨some [0, 0, 5], some [1, 0, 0, 0, 1, 0]⟩
  | "c" => some ⟨some [0, 0, -3], some [1, 0, 0, 0, 1, 0]⟩
  | _ => none

/-- Two valid slices plus one with a malformed (2-element) position. -/
def exMetaFew : MetaStore := fun id =>
  match id with
  | "a" => some ⟨some [0, 0, 0], some [1, 0, 0, 0, 1, 0]⟩
  | "b" => some ⟨some [0, 0, 1], some [1, 0, 0, 0, 1, 0]⟩
  | "x" => some ⟨some [0, 0], some [1, 0, 0, 0, 1, 0]⟩
  | _ => none

/-- Three valid slices with three mutually incompatible orientations. -/
def exMetaScattered : MetaStore := fun id =>
  match id with
  | "a" => some ⟨some [0, 0, 0], some [1, 0, 0, 0, 1, 0]⟩
  | "b" => some ⟨some [0, 0, 1], some [0, 1, 0, 0, 0, 1]⟩
  | "c" => some ⟨some [0, 0, 2], some [0, 0, 1, 1, 0, 0]⟩
  | _ => none

/-- A seed slice with axes `(1,0,0)/(0,1,0)`. -/
def seedP : Plane := ⟨"s", ⟨0, 0, 0⟩, ⟨1, 0, 0⟩, ⟨0, 1, 0⟩⟩

/-- A slice `0.0009` above the seed on the row x-component. -/
def offP : Plane := ⟨"p", ⟨0, 0, 1⟩, ⟨1 + 9/10000, 0, 0⟩, ⟨0, 1, 0⟩⟩

/-- A slice `0.0009` below the seed on the row x-component: within tolerance of
the seed but `0.0018` away from `offP`. -/
def offQ : Plane := ⟨"q", ⟨0, 0, 2⟩, ⟨1 - 9/10000, 0, 0⟩, ⟨0, 1, 0⟩⟩

/-- The exact sign-flip of `seedP`: both axes negated component-wise. -/
def negP : Plane := ⟨"n", ⟨0, 0, 3⟩, ⟨-1, 0, 0⟩, ⟨0, -1, 0⟩⟩

/-- Base slice for the tolerance-boundary instances. -/
def tolBase : Plane := ⟨"t0", ⟨0, 0, 0⟩, ⟨1, 0, 0⟩, ⟨0, 1, 0⟩⟩

/-- A slice whose six axis components each differ from `tolBase` by exactly
`0.0005`. -/
def tolHalf : Plane :=
  ⟨"t1", ⟨0, 0, 1⟩, ⟨1 + 1/2000, 1/2000, 1/2000⟩, ⟨1/2000, 1 + 1/2000, 1/2000⟩⟩

/-- A slice whose six axis components each differ from `tolBase` by exactly
`0.002`. -/
def tolTwo : Plane :=
  ⟨"t2", ⟨0, 0, 1⟩, ⟨1 + 1/500, 1/500, 1/500⟩, ⟨1/500, 1 + 1/500, 1/500⟩⟩

/-- A plane with given id, z-position and one of two orientations: `true` gives
axes `(1,0,0)/(0,1,0)`, `false` gives axes `(0,1,0)/(0,0,1)`. -/
def mkSlice (o : Bool) (z : ℚ) : ImagePlaneModule :=
  if o then ⟨some [0, 0, z], some [1, 0, 0, 0, 1, 0]⟩
  else ⟨some [0, 0, z], some [0, 1, 0, 0, 0, 1]⟩

/-- Ten slices: a 6-member axial cluster interleaved with a 4-member
perpendicular cluster. -/
def exMetaTwoClusters : MetaStore := fun id =>
  match id with
  | "a1" => some (mkSlice true 1)
  | "b1" => some (mkSlice false 1)
  | "a2" => some (mkSlice true 2)
  | "a3" => some (mkSlice true 3)
  | "b2" => some (mkSlice false 2)
  | "a4" => some (mkSlice true 4)
  | "b3" => some (mkSlice false 3)
  | "a5" => some (mkSlice true 5)
  | "b4" => some (mkSlice false 4)
  | "a6" => some (mkSlice true 6)
  | _ => none

/-- The id order in which the two interleaved clusters are fed in. -/
def twoClusterIds : List String :=
  ["a1", "b1", "a2", "a3", "b2", "a4", "b3", "a5", "b4", "a6"]

/-- Membership test of the 6-member cluster: row axis x-component is 1. -/
def inBigCluster (p : Plane) : Bool := decide (p.row.x = 1)

/-- The spec's per-component tolerance condition: every component of the two
vectors differs by strictly less than `eps` in absolute value. -/
def axesWithin (u v : Vec3) (eps : ℚ) : Prop :=
  |u.x - v.x| < eps ∧ |u.y - v.y| < eps ∧ |u.z - v.z| < eps

/-! ### Structural lemmas about the grouping pass -/

theorem flatten_groupPlanes_perm (l : List Plane) :
    (groupPlanes l).flatten.Perm l := by
  induction l using groupPlanes.induct with
  | case1 => simp [groupPlanes]
  | case2 p rest ih =>
    simp only [groupPlanes, List.flatten_cons, List.cons_append]
    exact List.Perm.cons p ((List.Perm.append_left _ ih).trans
      (List.filter_append_perm _ rest))

theorem groupPlanes_shape (l : List Plane) :
    ∀ g ∈ groupPlanes l, ∃ s t, g = s :: t ∧
      ∀ p ∈ t, sameOrientation s p EPS = true := by
  induction l using groupPlanes.induct with
  | case1 => simp [groupPlanes]
  | case2 p rest ih =>
    intro g hg
    simp only [groupPlanes, List.mem_cons] at hg
    rcases hg with rfl | hg
    · exact ⟨p, _, rfl, fun q hq => (List.mem_filter.mp hq).2⟩
    · exact ih g hg

theorem groupPlanes_single (p : Plane) (rest : List Plane)
    (h : ∀ q ∈ rest, sameOrientation p q EPS = true) :
    groupPlanes (p :: rest) = [p :: rest] := by
  have hm : rest.filter (fun q => sameOrientation p q EPS) = rest :=
    List.filter_eq_self.mpr h
  have hu : rest.filter (fun q => !sameOrientation p q EPS) = [] := by
    rw [List.filter_eq_nil_iff]
    intro q hq
    simp [h q hq]
  simp only [groupPlanes, hm, hu]

theorem sortGroups_perm (gs : List (List Plane)) :
    (sortGroups gs).Perm gs :=
  List.perm_insertionSort _ gs

theorem sortAlongNormal_perm (n : Vec3) (g : List Plane) :
    (sortAlongNormal n g).Perm g :=
  List.perm_insertionSort _ g

theorem length_sortAlongNormal (n : Vec3) (g : List Plane) :
    (sortAlongNormal n g).length = g.length :=
  (sortAlongNormal_perm n g).length_eq

theorem sortAlongNormal_sorted (n : Vec3) (g : List Plane) :
    List.Sorted (fun a b => dot a.ipp n ≤ dot b.ipp n) (sortAlongNormal n g) := by
  haveI : IsTotal Plane (fun a b => dot a.ipp n ≤ dot b.ipp n) :=
    ⟨fun a b => le_total _ _⟩
  haveI : IsTrans Plane (fun a b => dot a.ipp n ≤ dot b.ipp n) :=
    ⟨fun _ _ _ hab hbc => le_trans hab hbc⟩
  exact List.sorted_insertionSort _ g

theorem headD_sortGroups_mem {gs : List (List Plane)} {m0 : Plane}
    {t : List Plane} (h : (sortGroups gs).headD [] = m0 :: t) :
    (m0 :: t) ∈ gs := by
  cases hs : sortGroups gs with
  | nil => rw [hs] at h; simp at h
  | cons a l =>
    rw [hs] at h
    simp only [List.headD_cons] at h
    have ha : a ∈ sortGroups gs := by rw [hs]; exact List.mem_cons_self a l
    rw [h] at ha
    exact (sortGroups_perm gs).mem_iff.mp ha

theorem length_le_headD_sortGroups {gs : List (List Plane)}
    {g : List Plane} (hg : g ∈ gs) :
    g.length ≤ ((sortGroups gs).headD []).length := by
  haveI : IsTotal (List Plane) (fun x y => y.length ≤ x.length) :=
    ⟨fun x y => (le_total x.length y.length).symm⟩
  haveI : IsTrans (List Plane) (fun x y => y.length ≤ x.length) :=
    ⟨fun _ _ _ hab hbc => le_trans hbc hab⟩
  have hsorted : List.Sorted (fun x y : List Plane => y.length ≤ x.length)
      (sortGroups gs) := List.sorted_insertionSort _ gs
  cases hs : sortGroups gs with
  | nil =>
    have hnil : gs = [] := List.Perm.eq_nil ((hs ▸ sortGroups_perm gs).symm)
    rw [hnil] at hg
    simp at hg
  | cons a l =>
    have hg' : g ∈ a :: l := hs ▸ (sortGroups_perm gs).symm.mem_iff.mp hg
    rw [hs] at hsorted
    simp only [List.headD_cons]
    rcases List.mem_cons.mp hg' with rfl | hmem
    · exact le_refl _
    · exact List.rel_of_sorted_cons hsorted g hmem

/-! ### Branch characterizations of the selector -/

theorem build_eq_of_tooFew (meta : MetaStore) (ids : List String)
    (h : (collectPlanes meta ids).length < 3) :
    buildMprImageIds meta ids = { goodIds := [], reason := some tooFewReason } := by
  unfold buildMprImageIds
  simp only [if_pos h]

theorem build_eq_of_noGroup_nil (meta : MetaStore) (ids : List String)
    (h3 : ¬ (collectPlanes meta ids).length < 3)
    (hg : dominantGroup meta ids = []) :
    buildMprImageIds meta ids = { goodIds := [], reason := some noGroupReason } := by
  unfold buildMprImageIds
  unfold dominantGroup at hg
  simp only [if_neg h3, hg]

theorem build_eq_of_smallGroup (meta : MetaStore) (ids : List String)
    (m0 : Plane) (t : List Plane)
    (h3 : ¬ (collectPlanes meta ids).length < 3)
    (hg : dominantGroup meta ids = m0 :: t)
    (hlen : (m0 :: t).length < 3) :
    buildMprImageIds meta ids = { goodIds := [], reason := some noGroupReason } := by
  unfold buildMprImageIds
  unfold dominantGroup at hg
  simp only [if_neg h3, hg, if_pos hlen]

theorem build_eq_of_success (meta : MetaStore) (ids : List String)
    (m0 : Plane) (t : List Plane)
    (h3 : ¬ (collectPlanes meta ids).length < 3)
    (hg : dominantGroup meta ids = m0 :: t)
    (hlen : ¬ (m0 :: t).length < 3) :
    buildMprImageIds meta ids =
      { goodIds := (sortAlongNormal (cross m0.row m0.col) (m0 :: t)).map
          (fun p => p.imageId),
        reason := none } := by
  unfold buildMprImageIds
  unfold dominantGroup at hg
  simp only [if_neg h3, hg, if_neg hlen]

theorem dominantGroup_length_le (meta : MetaStore) (ids : List String) :
    (dominantGroup meta ids).length ≤ (collectPlanes meta ids).length := by
  unfold dominantGroup
  cases hs : (sortGroups (groupPlanes (collectPlanes meta ids))).headD [] with
  | nil => simp
  | cons m0 t =>
    have hmem := headD_sortGroups_mem hs
    have hsub := List.sublist_flatten_of_mem hmem
    have hle := hsub.length_le
    rw [(flatten_groupPlanes_perm (collectPlanes meta ids)).length_eq] at hle
    exact hle

theorem planeOfMeta_imageId {id : String} {m : ImagePlaneModule} {p : Plane}
    (h : planeOfMeta id m = some p) : p.imageId = id := by
  unfold planeOfMeta at h
  split at h
  · cases h; rfl
  · cases h

theorem count_collectPlanes_le (meta : MetaStore) (ids : List String)
    (s : String) :
    ((collectPlanes meta ids).map Plane.imageId).count s ≤ ids.count s := by
  induction ids with
  | nil => simp [collectPlanes]
  | cons id rest ih =>
    unfold collectPlanes at ih ⊢
    simp only [List.filterMap_cons]
    cases hm : (meta id).bind (planeOfMeta id) with
    | none =>
      refine le_trans ih ?_
      rw [List.count_cons]
      omega
    | some p =>
      have hid : p.imageId = id := by
        cases hmm : meta id with
        | none => rw [hmm] at hm; simp at hm
        | some m =>
          rw [hmm] at hm
          simp only [Option.some_bind] at hm
          exact planeOfMeta_imageId hm
      simp only [List.map_cons, List.count_cons, hid]
      exact Nat.add_le_add ih le_rfl

/-! ### Orientation algebra -/

theorem EPS_pos : (0 : ℚ) < EPS := by norm_num [EPS]

theorem negVec_negVec (v : Vec3) : negVec (negVec v) = v := by
  cases v
  simp [negVec]

theorem nearlyEqualVec_refl (v : Vec3) {eps : ℚ} (h : 0 < eps) :
    nearlyEqualVec v v eps = true := by
  simp [nearlyEqualVec, h]

theorem sameOrientation_refl (a : Plane) : sameOrientation a a EPS = true := by
  simp [sameOrientation, nearlyEqualVec_refl _ EPS_pos]

theorem sameOrientation_of_neg (a b : Plane) (hrow : b.row = negVec a.row)
    (hcol : b.col = negVec a.col) : sameOrientation a b EPS = true := by
  unfold sameOrientation
  rw [hrow, hcol, negVec_negVec, negVec_negVec]
  simp [nearlyEqualVec_refl _ EPS_pos]

theorem sameOrientation_congr_neg (s p q : Plane) (hrow : q.row = negVec p.row)
    (hcol : q.col = negVec p.col) :
    sameOrientation s q EPS = sameOrientation s p EPS := by
  unfold sameOrientation
  rw [hrow, hcol, negVec_negVec, negVec_negVec]
  exact Bool.or_comm _ _

theorem sameOrientation_of_eq_axes (a b : Plane) (hr : a.row = b.row)
    (hc : a.col = b.col) : sameOrientation a b EPS = true := by
  unfold sameOrientation
  rw [hr, hc]
  simp [nearlyEqualVec_refl _ EPS_pos]

theorem sameOrientation_eq_true_iff (a b : Plane) (eps : ℚ) :
    sameOrientation a b eps = true ↔
      ((axesWithin a.row b.row eps ∧ axesWithin a.col b.col eps) ∨
       (axesWithin a.row (negVec b.row) eps ∧
         axesWithin a.col (negVec b.col) eps)) := by
  simp [sameOrientation, nearlyEqualVec, axesWithin, and_assoc]

theorem pair_group_iff (p q : Plane) :
    (∃ g ∈ groupPlanes [p, q], p ∈ g ∧ q ∈ g) ↔
      sameOrientation p q EPS = true := by
  by_cases h : sameOrientation p q EPS = true
  · have hgp : groupPlanes [p, q] = [[p, q]] := by
      simp [groupPlanes, h]
    rw [hgp]
    simp [h]
  · have hgp : groupPlanes [p, q] = [[p], [q]] := by
      simp [groupPlanes, h]
    rw [hgp]
    simp only [h, Bool.false_eq_true, iff_false]
    rintro ⟨g, hg, hpg, hqg⟩
    rcases List.mem_cons.mp hg with rfl | hg'
    · rcases List.mem_singleton.mp hqg with rfl
      exact h (sameOrientation_refl _)
    · rcases List.mem_singleton.mp hg' with rfl
      rcases List.mem_singleton.mp hpg with rfl
      exact h (sameOrientation_refl _)

theorem sortGroups_pair (A B : List Plane) :
    sortGroups [A, B] = if B.length ≤ A.length then [A, B] else [B, A] := by
  simp [sortGroups, List.insertionSort, List.orderedInsert]

theorem groupPlanes_twoClusters (f : Plane → Bool) (p : Plane)
    (rest : List Plane)
    (hin : ∀ a ∈ p :: rest, ∀ b ∈ p :: rest, f a = f b →
      sameOrientation a b EPS = true)
    (hout : ∀ a ∈ p :: rest, ∀ b ∈ p :: rest, f a ≠ f b →
      sameOrientation a b EPS = false) :
    groupPlanes (p :: rest) =
      (p :: rest.filter (fun q => f q == f p)) ::
        (if rest.filter (fun q => f q != f p) = [] then []
         else [rest.filter (fun q => f q != f p)]) := by
  have hp0 : p ∈ p :: rest := List.mem_cons_self p rest
  have hfil1 : rest.filter (fun q => sameOrientation p q EPS) =
      rest.filter (fun q => f q == f p) := by
    apply List.filter_congr
    intro q hq
    have hqm : q ∈ p :: rest := List.mem_cons_of_mem p hq
    by_cases hfq : f q = f p
    · rw [hin p hp0 q hqm hfq.symm]
      simp [hfq]
    · rw [hout p hp0 q hqm (fun h => hfq h.symm)]
      simp [hfq]
  have hfil2 : rest.filter (fun q => !sameOrientation p q EPS) =
      rest.filter (fun q => f q != f p) := by
    apply List.filter_congr
    intro q hq
    have hqm : q ∈ p :: rest := List.mem_cons_of_mem p hq
    by_cases hfq : f q = f p
    · rw [hin p hp0 q hqm hfq.symm]
      simp [hfq]
    · rw [hout p hp0 q hqm (fun h => hfq h.symm)]
      simp [hfq]
  simp only [groupPlanes]
  rw [hfil1, hfil2]
  cases hu : rest.filter (fun q => f q != f p) with
  | nil => simp [groupPlanes]
  | cons u us =>
    have hall : ∀ q ∈ us, sameOrientation u q EPS = true := by
      intro q hq
      have hu' : u ∈ rest.filter (fun q => f q != f p) := by
        rw [hu]
        exact List.mem_cons_self u us
      have hq' : q ∈ rest.filter (fun q => f q != f p) := by
        rw [hu]
        exact List.mem_cons_of_mem u hq
      have hu2 := List.mem_filter.mp hu'
      have hq2 := List.mem_filter.mp hq'
      have hfu : f u ≠ f p := by simpa using hu2.2
      have hfq2 : f q ≠ f p := by simpa using hq2.2
      have hfeq : f u = f q := by
        revert hfu hfq2
        cases f p <;> cases f u <;> cases f q <;> simp
      exact hin u (List.mem_cons_of_mem p hu2.1)
        q (List.mem_cons_of_mem p hq2.1) hfeq
    have hgu : groupPlanes (u :: us) = [u :: us] :=
      groupPlanes_single u us hall
    rw [hgu]
    simp

/-! ### Claim theorems -/

/-- C3: for every input in which fewer than 3 identifiers resolve to both a
3-element position and a 6-element orientation vector, the selector returns a
failure result carrying the too-few-slices-with-geometry reason. -/
theorem claim3_tooFewGeometry (meta : MetaStore) (ids : List String)
    (h : (collectPlanes meta ids).length < 3) :
    buildMprImageIds meta ids = { goodIds := [], reason := some tooFewReason } :=
  build_eq_of_tooFew meta ids h

theorem claim3_witness :
    (collectPlanes exMetaFew ["a", "b", "x", "y"]).length < 3 ∧
      buildMprImageIds exMetaFew ["a", "b", "x", "y"] =
        { goodIds := [], reason := some tooFewReason } :=
  ⟨by simp [collectPlanes, exMetaFew, planeOfMeta],
    claim3_tooFewGeometry exMetaFew ["a", "b", "x", "y"]
      (by simp [collectPlanes, exMetaFew, planeOfMeta])⟩

/-- C9: every result is in exactly one of two shapes: an empty id list with a
reason present, or an id list of length at least 3 with no reason. -/
theorem claim9_resultShape (meta : MetaStore) (ids : List String) :
    ((buildMprImageIds meta ids).goodIds = [] ∧
      ((buildMprImageIds meta ids).reason).isSome = true) ∨
    (3 ≤ (buildMprImageIds meta ids).goodIds.length ∧
      (buildMprImageIds meta ids).reason = none) := by
  by_cases h3 : (collectPlanes meta ids).length < 3
  · rw [build_eq_of_tooFew meta ids h3]
    exact Or.inl ⟨rfl, rfl⟩
  · cases hg : dominantGroup meta ids with
    | nil =>
      rw [build_eq_of_noGroup_nil meta ids h3 hg]
      exact Or.inl ⟨rfl, rfl⟩
    | cons m0 t =>
      by_cases hlen : (m0 :: t).length < 3
      · rw [build_eq_of_smallGroup meta ids m0 t h3 hg hlen]
        exact Or.inl ⟨rfl, rfl⟩
      · rw [build_eq_of_success meta ids m0 t h3 hg hlen]
        refine Or.inr ⟨?_, rfl⟩
        simp only [List.length_map, length_sortAlongNormal]
        omega

/-- C10: each identifier occurs in the returned list at most as often as in the
input sequence: the output is a sub-multiset of the input, no identifier is
invented. -/
theorem claim10_outputSubMultiset (meta : MetaStore) (ids : List String)
    (s : String) :
    ((buildMprImageIds meta ids).goodIds).count s ≤ ids.count s := by
  by_cases h3 : (collectPlanes meta ids).length < 3
  · rw [build_eq_of_tooFew meta ids h3]
    simp
  · cases hg : dominantGroup meta ids with
    | nil =>
      rw [build_eq_of_noGroup_nil meta ids h3 hg]
      simp
    | cons m0 t =>
      by_cases hlen : (m0 :: t).length < 3
      · rw [build_eq_of_smallGroup meta ids m0 t h3 hg hlen]
        simp
      · rw [build_eq_of_success meta ids m0 t h3 hg hlen]
        have hperm : ((sortAlongNormal (cross m0.row m0.col) (m0 :: t)).map
            (fun p => p.imageId)).Perm ((m0 :: t).map (fun p => p.imageId)) :=
          (sortAlongNormal_perm _ _).map _
        rw [hperm.count_eq]
        have hg' : (sortGroups (groupPlanes (collectPlanes meta ids))).headD []
            = m0 :: t := hg
        have hmem := headD_sortGroups_mem hg'
        have hsub := List.sublist_flatten_of_mem hmem
        have hsubm := hsub.map (fun p => p.imageId)
        have h1 := hsubm.count_le s
        have hpf : ((groupPlanes (collectPlanes meta ids)).flatten.map
            (fun p => p.imageId)).Perm ((collectPlanes meta ids).map
              (fun p => p.imageId)) :=
          (flatten_groupPlanes_perm _).map _
        rw [hpf.count_eq] at h1
        exact le_trans h1 (count_collectPlanes_le meta ids s)

/-- C8: when all geometrically valid slices (at least 3) share one consistent
orientation, the selector succeeds and returns as many ids as there are valid
slices. -/
theorem claim8_singleOrientationAll (meta : MetaStore) (ids : List String)
    (hlen : 3 ≤ (collectPlanes meta ids).length)
    (hall : ∀ p ∈ collectPlanes meta ids, ∀ q ∈ collectPlanes meta ids,
      sameOrientation p q EPS = true) :
    (buildMprImageIds meta ids).reason = none ∧
    (buildMprImageIds meta ids).goodIds.length =
      (collectPlanes meta ids).length := by
  have h3 : ¬ (collectPlanes meta ids).length < 3 := by omega
  cases hl : collectPlanes meta ids with
  | nil => rw [hl] at hlen; simp at hlen
  | cons p rest =>
    have hgroup : groupPlanes (p :: rest) = [p :: rest] := by
      apply groupPlanes_single
      intro q hq
      exact hall p (by rw [hl]; exact List.mem_cons_self p rest)
        q (by rw [hl]; exact List.mem_cons_of_mem p hq)
    have hsort : sortGroups [p :: rest] = [p :: rest] := by
      simp [sortGroups]
    have hdom : dominantGroup meta ids = p :: rest := by
      unfold dominantGroup
      rw [hl, hgroup, hsort]
      rfl
    have hlen' : ¬ (p :: rest).length < 3 := by
      rw [← hl]
      exact h3
    rw [build_eq_of_success meta ids p rest h3 hdom hlen']
    refine ⟨rfl, ?_⟩
    simp only [List.length_map, length_sortAlongNormal]

theorem claim8_witness :
    (3 ≤ (collectPlanes exMeta1 ["a", "b", "c"]).length ∧
      (∀ p ∈ collectPlanes exMeta1 ["a", "b", "c"],
        ∀ q ∈ collectPlanes exMeta1 ["a", "b", "c"],
          sameOrientation p q EPS = true)) ∧
    ((buildMprImageIds exMeta1 ["a", "b", "c"]).reason = none ∧
      (buildMprImageIds exMeta1 ["a", "b", "c"]).goodIds.length =
        (collectPlanes exMeta1 ["a", "b", "c"]).length) := by
  have h1 : 3 ≤ (collectPlanes exMeta1 ["a", "b", "c"]).length := by
    simp [collectPlanes, exMeta1, planeOfMeta]
  have h2 : ∀ p ∈ collectPlanes exMeta1 ["a", "b", "c"],
      ∀ q ∈ collectPlanes exMeta1 ["a", "b", "c"],
        sameOrientation p q EPS = true := by
    simp only [collectPlanes, exMeta1, planeOfMeta, List.filterMap_cons,
      Option.some_bind, List.filterMap_nil, List.forall_mem_cons,
      List.not_mem_nil]
    norm_num [sameOrientation, nearlyEqualVec, negVec, EPS, abs_lt]
  exact ⟨⟨h1, h2⟩, claim8_singleOrientationAll exMeta1 ["a", "b", "c"] h1 h2⟩

/-- C1: whenever the dominant orientation group has at least 3 members, the
selector succeeds and returns exactly that group's identifiers, listed in a
reordering of the group that is sorted ascending by the dot product of slice
position with the normal computed from the group's first slice. -/
theorem claim1_orderedAlongNormal (meta : MetaStore) (ids : List String)
    (h : 3 ≤ (dominantGroup meta ids).length) :
    (buildMprImageIds meta ids).reason = none ∧
    ∃ m0 t ms, dominantGroup meta ids = m0 :: t ∧
      List.Perm ms (m0 :: t) ∧
      (buildMprImageIds meta ids).goodIds = ms.map (fun p => p.imageId) ∧
      List.Sorted (fun a b =>
        dot a.ipp (cross m0.row m0.col) ≤ dot b.ipp (cross m0.row m0.col)) ms := by
  have hdl := dominantGroup_length_le meta ids
  have h3 : ¬ (collectPlanes meta ids).length < 3 := by omega
  cases hg : dominantGroup meta ids with
  | nil => rw [hg] at h; simp at h
  | cons m0 t =>
    have hlen : ¬ (m0 :: t).length < 3 := by
      rw [hg] at h
      omega
    rw [build_eq_of_success meta ids m0 t h3 hg hlen]
    exact ⟨rfl, m0, t, sortAlongNormal (cross m0.row m0.col) (m0 :: t), rfl,
      sortAlongNormal_perm _ _, rfl, sortAlongNormal_sorted _ _⟩

theorem claim1_witness :
    3 ≤ (dominantGroup exMeta1 ["a", "b", "c"]).length ∧
    ((buildMprImageIds exMeta1 ["a", "b", "c"]).reason = none ∧
      ∃ m0 t ms, dominantGroup exMeta1 ["a", "b", "c"] = m0 :: t ∧
        List.Perm ms (m0 :: t) ∧
        (buildMprImageIds exMeta1 ["a", "b", "c"]).goodIds =
          ms.map (fun p => p.imageId) ∧
        List.Sorted (fun a b =>
          dot a.ipp (cross m0.row m0.col) ≤ dot b.ipp (cross m0.row m0.col)) ms) ∧
    (buildMprImageIds exMeta1 ["a", "b", "c"]).goodIds = ["c", "a", "b"] := by
  have h1 : 3 ≤ (dominantGroup exMeta1 ["a", "b", "c"]).length := by
    simp [dominantGroup, sortGroups, groupPlanes, collectPlanes, exMeta1,
      planeOfMeta, sameOrientation, nearlyEqualVec, negVec, EPS, abs_lt]
  refine ⟨h1, claim1_orderedAlongNormal exMeta1 ["a", "b", "c"] h1, ?_⟩
  simp [buildMprImageIds, collectPlanes, exMeta1, planeOfMeta, groupPlanes,
    sameOrientation, nearlyEqualVec, negVec, EPS, sortGroups, sortAlongNormal,
    cross, dot, abs_lt]
  norm_num

/-- C4: with at least 3 valid slices but a largest orientation group below 3
members, the selector fails with the no-consistent-group reason; moreover these
two conditions are the only ways the selector can fail. -/
theorem claim4_noGroupFailure (meta : MetaStore) (ids : List String) :
    ((3 ≤ (collectPlanes meta ids).length ∧
        (dominantGroup meta ids).length < 3) →
      buildMprImageIds meta ids =
        { goodIds := [], reason := some noGroupReason }) ∧
    ((buildMprImageIds meta ids).reason ≠ none →
      (collectPlanes meta ids).length < 3 ∨
        (dominantGroup meta ids).length < 3) := by
  constructor
  · rintro ⟨hge, hdom⟩
    have h3 : ¬ (collectPlanes meta ids).length < 3 := by omega
    cases hg : dominantGroup meta ids with
    | nil => exact build_eq_of_noGroup_nil meta ids h3 hg
    | cons m0 t =>
      refine build_eq_of_smallGroup meta ids m0 t h3 hg ?_
      rw [hg] at hdom
      exact hdom
  · intro hr
    by_cases h3 : (collectPlanes meta ids).length < 3
    · exact Or.inl h3
    · cases hg : dominantGroup meta ids with
      | nil => exact Or.inr (by simp)
      | cons m0 t =>
        by_cases hlen : (m0 :: t).length < 3
        · exact Or.inr hlen
        · exfalso
          apply hr
          rw [build_eq_of_success meta ids m0 t h3 hg hlen]

theorem claim4_witness :
    buildMprImageIds exMetaScattered ["a", "b", "c"] =
      { goodIds := [], reason := some noGroupReason } :=
  (claim4_noGroupFailure exMetaScattered ["a", "b", "c"]).1
    ⟨by simp [collectPlanes, exMetaScattered, planeOfMeta],
      by
        simp [dominantGroup, sortGroups, collectPlanes, exMetaScattered,
          planeOfMeta, sameOrientation, nearlyEqualVec, negVec, EPS, abs_lt]
        norm_num [groupPlanes, sortGroups, sameOrientation, nearlyEqualVec,
          negVec, EPS, abs_lt]⟩

/-- C5: two slices whose row and col axes are exact component-wise negations of
each other always land in the same orientation group, wherever they sit in the
input: negating both axes does not change which group a slice joins. -/
theorem claim5_signFlipInvariance (l : List Plane) (p q : Plane)
    (hrow : q.row = negVec p.row) (hcol : q.col = negVec p.col)
    (hp : p ∈ l) (hq : q ∈ l) :
    ∃ g ∈ groupPlanes l, p ∈ g ∧ q ∈ g := by
  revert hp hq
  induction l using groupPlanes.induct with
  | case1 =>
    intro hp hq
    simp at hp
  | case2 s rest ih =>
    intro hp hq
    by_cases hsp : sameOrientation s p EPS = true
    · have hsq : sameOrientation s q EPS = true := by
        rw [sameOrientation_congr_neg s p q hrow hcol]
        exact hsp
      refine ⟨s :: rest.filter (fun q' => sameOrientation s q' EPS),
        ?_, ?_, ?_⟩
      · simp [groupPlanes]
      · rcases List.mem_cons.mp hp with rfl | hp'
        · exact List.mem_cons_self _ _
        · exact List.mem_cons_of_mem _ (List.mem_filter.mpr ⟨hp', hsp⟩)
      · rcases List.mem_cons.mp hq with rfl | hq'
        · exact List.mem_cons_self _ _
        · exact List.mem_cons_of_mem _ (List.mem_filter.mpr ⟨hq', hsq⟩)
    · have hps : p ≠ s := by
        intro h
        subst h
        exact hsp (sameOrientation_refl p)
      have hqs : q ≠ s := by
        intro h
        subst h
        apply hsp
        have h1 : p.row = negVec q.row := by rw [hrow, negVec_negVec]
        have h2 : p.col = negVec q.col := by rw [hcol, negVec_negVec]
        exact sameOrientation_of_neg q p h1 h2
      have hsq : ¬ sameOrientation s q EPS = true := by
        rw [sameOrientation_congr_neg s p q hrow hcol]
        exact hsp
      have hp' : p ∈ rest := (List.mem_cons.mp hp).resolve_left hps
      have hq' : q ∈ rest := (List.mem_cons.mp hq).resolve_left hqs
      obtain ⟨g, hgmem, hpg, hqg⟩ := ih
        (List.mem_filter.mpr ⟨hp', by simp [hsp]⟩)
        (List.mem_filter.mpr ⟨hq', by simp [hsq]⟩)
      refine ⟨g, ?_, hpg, hqg⟩
      simp only [groupPlanes, List.mem_cons]
      exact Or.inr hgmem

theorem claim5_witness :
    ∃ g ∈ groupPlanes [seedP, negP], seedP ∈ g ∧ negP ∈ g :=
  claim5_signFlipInvariance [seedP, negP] seedP negP
    (by simp [seedP, negP, negVec])
    (by simp [seedP, negP, negVec])
    (by simp) (by simp)

/-- C6: the grouping of a pair of slices is decided exactly by the per-component
tolerance test: the two are grouped together precisely when every component of
their row and col axes differs by strictly less than 1e-3 in absolute value,
directly or after negating both axes; in particular a pair differing by exactly
0.0005 per component is grouped together and a pair differing by 0.002 per
component is not. -/
theorem claim6_toleranceSemantics :
    (∀ p q : Plane,
      (∃ g ∈ groupPlanes [p, q], p ∈ g ∧ q ∈ g) ↔
        ((axesWithin p.row q.row EPS ∧ axesWithin p.col q.col EPS) ∨
         (axesWithin p.row (negVec q.row) EPS ∧
           axesWithin p.col (negVec q.col) EPS))) ∧
    (∃ g ∈ groupPlanes [tolBase, tolHalf], tolBase ∈ g ∧ tolHalf ∈ g) ∧
    ¬ (∃ g ∈ groupPlanes [tolBase, tolTwo], tolBase ∈ g ∧ tolTwo ∈ g) := by
  refine ⟨fun p q =>
    (pair_group_iff p q).trans (sameOrientation_eq_true_iff p q EPS), ?_, ?_⟩
  · have hgp : groupPlanes [tolBase, tolHalf] = [[tolBase, tolHalf]] := by
      simp [groupPlanes, sameOrientation, nearlyEqualVec, negVec, EPS, tolBase,
        tolHalf, abs_lt]
      norm_num [groupPlanes]
    rw [hgp]
    exact ⟨[tolBase, tolHalf], by simp, by simp, by simp⟩
  · have hgp : groupPlanes [tolBase, tolTwo] = [[tolBase], [tolTwo]] := by
      simp [groupPlanes, sameOrientation, nearlyEqualVec, negVec, EPS, tolBase,
        tolTwo, abs_lt]
      norm_num [groupPlanes]
    rw [hgp]
    rintro ⟨g, hg, hbg, htg⟩
    rcases List.mem_cons.mp hg with rfl | hg'
    · rcases List.mem_singleton.mp htg with h
      simp [tolBase, tolTwo] at h
    · rcases List.mem_singleton.mp hg' with rfl
      rcases List.mem_singleton.mp hbg with h
      simp [tolBase, tolTwo] at h

/-- C7 counterexample: in the three-slice input `[seedP, offP, offQ]` the
grouping pass puts `offP` and `offQ` in one group even though they are not
same-orientation with each other (only each with the seed), refuting the
mutual-pairwise-orientation invariant as claimed. -/
theorem claim7_counterexample :
    (∃ g ∈ groupPlanes [seedP, offP, offQ], offP ∈ g ∧ offQ ∈ g) ∧
      sameOrientation offP offQ EPS = false := by
  have hgp : groupPlanes [seedP, offP, offQ] = [[seedP, offP, offQ]] := by
    simp [groupPlanes, sameOrientation, nearlyEqualVec, negVec, EPS, seedP,
      offP, offQ, abs_lt]
    norm_num [groupPlanes]
  constructor
  · rw [hgp]
    exact ⟨[seedP, offP, offQ], by simp, by simp, by simp⟩
  · simp [sameOrientation, nearlyEqualVec, negVec, EPS, offP, offQ, abs_lt]
    norm_num

/-- C7 (amended): every orientation group is headed by its seed slice and every
other member is same-orientation with that seed (within the 1e-3 tolerance,
allowing the simultaneous sign flip); mutual same-orientation between arbitrary
members does not hold in general. -/
theorem claim7_seedOrientationLaw (l : List Plane) (g : List Plane)
    (hg : g ∈ groupPlanes l) :
    ∃ s t, g = s :: t ∧ ∀ p ∈ t, sameOrientation s p EPS = true :=
  groupPlanes_shape l g hg

theorem claim7_witness :
    ∃ s t, ([seedP, offP, offQ] : List Plane) = s :: t ∧
      ∀ p ∈ t, sameOrientation s p EPS = true :=
  claim7_seedOrientationLaw [seedP, offP, offQ] [seedP, offP, offQ]
    (by
      have hgp : groupPlanes [seedP, offP, offQ] = [[seedP, offP, offQ]] := by
        simp [groupPlanes, sameOrientation, nearlyEqualVec, negVec, EPS, seedP,
          offP, offQ, abs_lt]
        norm_num [groupPlanes]
      rw [hgp]
      simp)

/-- C2: on any input whose valid slices split into two orientation clusters of
sizes 4 and 6 (in any interleaving order), the selector succeeds and returns
exactly 6 identifiers, all drawn from the 6-slice cluster. -/
theorem claim2_dominantSelection (meta : MetaStore) (ids : List String)
    (f : Plane → Bool)
    (hin : ∀ a ∈ collectPlanes meta ids, ∀ b ∈ collectPlanes meta ids,
      f a = f b → sameOrientation a b EPS = true)
    (hout : ∀ a ∈ collectPlanes meta ids, ∀ b ∈ collectPlanes meta ids,
      f a ≠ f b → sameOrientation a b EPS = false)
    (h6 : ((collectPlanes meta ids).filter f).length = 6)
    (h4 : ((collectPlanes meta ids).filter (fun q => !f q)).length = 4) :
    (buildMprImageIds meta ids).reason = none ∧
    (buildMprImageIds meta ids).goodIds.length = 6 ∧
    ∀ s ∈ (buildMprImageIds meta ids).goodIds,
      s ∈ ((collectPlanes meta ids).filter f).map (fun p => p.imageId) := by
  have hsplit := (List.filter_append_perm f (collectPlanes meta ids)).length_eq
  rw [List.length_append] at hsplit
  have h3 : ¬ (collectPlanes meta ids).length < 3 := by omega
  cases hl : collectPlanes meta ids with
  | nil =>
    rw [hl] at h6
    simp at h6
  | cons p rest =>
    rw [hl] at hin hout h6 h4
    have hgroups := groupPlanes_twoClusters f p rest hin hout
    have hdom : dominantGroup meta ids = (p :: rest).filter f := by
      cases hfp : f p with
      | true =>
        have e1 : rest.filter (fun q => f q == f p) = rest.filter f :=
          List.filter_congr (fun a _ => by rw [hfp]; cases f a <;> simp)
        have e2 : rest.filter (fun q => f q != f p) =
            rest.filter (fun q => !f q) :=
          List.filter_congr (fun a _ => by rw [hfp]; cases f a <;> simp)
        have e3 : (p :: rest).filter f = p :: rest.filter f := by
          simp [List.filter_cons, hfp]
        have e4 : (p :: rest).filter (fun q => !f q) =
            rest.filter (fun q => !f q) := by
          simp [List.filter_cons, hfp]
        have hne : rest.filter (fun q => !f q) ≠ [] := by
          intro h
          rw [e4, h] at h4
          simp at h4
        have hAB : groupPlanes (p :: rest) =
            [(p :: rest).filter f, (p :: rest).filter (fun q => !f q)] := by
          rw [hgroups, e1, e2, if_neg hne, e3, e4]
        unfold dominantGroup
        rw [hl, hAB, sortGroups_pair]
        rw [if_pos (by rw [h6, h4]; norm_num)]
        rfl
      | false =>
        have e1 : rest.filter (fun q => f q == f p) =
            rest.filter (fun q => !f q) :=
          List.filter_congr (fun a _ => by rw [hfp]; cases f a <;> simp)
        have e2 : rest.filter (fun q => f q != f p) = rest.filter f :=
          List.filter_congr (fun a _ => by rw [hfp]; cases f a <;> simp)
        have e3 : (p :: rest).filter (fun q => !f q) =
            p :: rest.filter (fun q => !f q) := by
          simp [List.filter_cons, hfp]
        have e4 : (p :: rest).filter f = rest.filter f := by
          simp [List.filter_cons, hfp]
        have hne : rest.filter f ≠ [] := by
          intro h
          rw [e4, h] at h6
          simp at h6
        have hAB : groupPlanes (p :: rest) =
            [(p :: rest).filter (fun q => !f q), (p :: rest).filter f] := by
          rw [hgroups, e1, e2, if_neg hne, e3, e4]
        unfold dominantGroup
        rw [hl, hAB, sortGroups_pair]
        rw [if_neg (by rw [h6, h4]; norm_num)]
        rfl
    cases hfl : (p :: rest).filter f with
    | nil =>
      rw [hfl] at h6
      simp at h6
    | cons m0 t =>
      rw [hfl] at hdom h6
      have hlen3 : ¬ (m0 :: t).length < 3 := by omega
      rw [build_eq_of_success meta ids m0 t h3 hdom hlen3]
      refine ⟨rfl, ?_, ?_⟩
      · simp only [List.length_map, length_sortAlongNormal]
        omega
      · intro s hs
        rw [List.mem_map] at hs
        obtain ⟨pl, hpl, rfl⟩ := hs
        have hm : pl ∈ m0 :: t := (sortAlongNormal_perm _ _).mem_iff.mp hpl
        exact List.mem_map_of_mem _ hm

theorem claim2_witness :
    ((∀ a ∈ collectPlanes exMetaTwoClusters twoClusterIds,
        ∀ b ∈ collectPlanes exMetaTwoClusters twoClusterIds,
          inBigCluster a = inBigCluster b → sameOrientation a b EPS = true) ∧
      (∀ a ∈ collectPlanes exMetaTwoClusters twoClusterIds,
        ∀ b ∈ collectPlanes exMetaTwoClusters twoClusterIds,
          inBigCluster a ≠ inBigCluster b → sameOrientation a b EPS = false) ∧
      ((collectPlanes exMetaTwoClusters twoClusterIds).filter
        inBigCluster).length = 6 ∧
      ((collectPlanes exMetaTwoClusters twoClusterIds).filter
        (fun q => !inBigCluster q)).length = 4) ∧
    ((buildMprImageIds exMetaTwoClusters twoClusterIds).reason = none ∧
      (buildMprImageIds exMetaTwoClusters twoClusterIds).goodIds.length = 6 ∧
      ∀ s ∈ (buildMprImageIds exMetaTwoClusters twoClusterIds).goodIds,
        s ∈ ((collectPlanes exMetaTwoClusters twoClusterIds).filter
          inBigCluster).map (fun p => p.imageId)) := by
  have hcp : collectPlanes exMetaTwoClusters twoClusterIds =
      [⟨"a1", ⟨0, 0, 1⟩, ⟨1, 0, 0⟩, ⟨0, 1, 0⟩⟩,
       ⟨"b1", ⟨0, 0, 1⟩, ⟨0, 1, 0⟩, ⟨0, 0, 1⟩⟩,
       ⟨"a2", ⟨0, 0, 2⟩, ⟨1, 0, 0⟩, ⟨0, 1, 0⟩⟩,
       ⟨"a3", ⟨0, 0, 3⟩, ⟨1, 0, 0⟩, ⟨0, 1, 0⟩⟩,
       ⟨"b2", ⟨0, 0, 2⟩, ⟨0, 1, 0⟩, ⟨0, 0, 1⟩⟩,
       ⟨"a4", ⟨0, 0, 4⟩, ⟨1, 0, 0⟩, ⟨0, 1, 0⟩⟩,
       ⟨"b3", ⟨0, 0, 3⟩, ⟨0, 1, 0⟩, ⟨0, 0, 1⟩⟩,
       ⟨"a5", ⟨0, 0, 5⟩, ⟨1, 0, 0⟩, ⟨0, 1, 0⟩⟩,
       ⟨"b4", ⟨0, 0, 4⟩, ⟨0, 1, 0⟩, ⟨0, 0, 1⟩⟩,
       ⟨"a6", ⟨0, 0, 6⟩, ⟨1, 0, 0⟩, ⟨0, 1, 0⟩⟩] := by
    simp [collectPlanes, twoClusterIds, exMetaTwoClusters, mkSlice,
      planeOfMeta]
  have hchar : ∀ pl ∈ collectPlanes exMetaTwoClusters twoClusterIds,
      (pl.row = ⟨1, 0, 0⟩ ∧ pl.col = ⟨0, 1, 0⟩ ∧ inBigCluster pl = true) ∨
      (pl.row = ⟨0, 1, 0⟩ ∧ pl.col = ⟨0, 0, 1⟩ ∧ inBigCluster pl = false) := by
    rw [hcp]
    intro pl hpl
    fin_cases hpl <;> norm_num [inBigCluster]
  have hin : ∀ a ∈ collectPlanes exMetaTwoClusters twoClusterIds,
      ∀ b ∈ collectPlanes exMetaTwoClusters twoClusterIds,
        inBigCluster a = inBigCluster b → sameOrientation a b EPS = true := by
    intro a ha b hb hf
    rcases hchar a ha with ⟨har, hac, haf⟩ | ⟨har, hac, haf⟩ <;>
      rcases hchar b hb with ⟨hbr, hbc, hbf⟩ | ⟨hbr, hbc, hbf⟩
    · exact sameOrientation_of_eq_axes a b (har.trans hbr.symm)
        (hac.trans hbc.symm)
    · rw [haf, hbf] at hf
      simp at hf
    · rw [haf, hbf] at hf
      simp at hf
    · exact sameOrientation_of_eq_axes a b (har.trans hbr.symm)
        (hac.trans hbc.symm)
  have hout : ∀ a ∈ collectPlanes exMetaTwoClusters twoClusterIds,
      ∀ b ∈ collectPlanes exMetaTwoClusters twoClusterIds,
        inBigCluster a ≠ inBigCluster b → sameOrientation a b EPS = false := by
    intro a ha b hb hf
    rcases hchar a ha with ⟨har, hac, haf⟩ | ⟨har, hac, haf⟩ <;>
      rcases hchar b hb with ⟨hbr, hbc, hbf⟩ | ⟨hbr, hbc, hbf⟩
    · rw [haf, hbf] at hf
      simp at hf
    · norm_num [sameOrientation, nearlyEqualVec, negVec, EPS, har, hac, hbr,
        hbc, abs_lt]
    · norm_num [sameOrientation, nearlyEqualVec, negVec, EPS, har, hac, hbr,
        hbc, abs_lt]
    · rw [haf, hbf] at hf
      simp at hf
  have h6 : ((collectPlanes exMetaTwoClusters twoClusterIds).filter
      inBigCluster).length = 6 := by
    rw [hcp]
    norm_num [List.filter, inBigCluster]
  have h4 : ((collectPlanes exMetaTwoClusters twoClusterIds).filter
      (fun q => !inBigCluster q)).length = 4 := by
    rw [hcp]
    norm_num [List.filter, inBigCluster]
  exact ⟨⟨hin, hout, h6, h4⟩,
    claim2_dominantSelection exMetaTwoClusters twoClusterIds inBigCluster
      hin hout h6 h4⟩

end Mpr
